import Mathlib

/-!
Shallow embedding of the Synacor-challenge virtual machine (`src/computer.py`,
class `Computer`) and proofs about it.

Modelling conventions:
* Machine words are `Nat`; the instruction pointer and stack entries are `Int`
  (the pointer uses `-1` as the halted sentinel, and `op_call` pushes the
  pointer onto the stack).
* Memory is a function `Nat → Nat`; only indices below `MOD = 32768` are
  meaningful, and every access goes through `pyIndex` / `pyClamp`, which
  reproduce Python list indexing and slicing (negative wrap-around, slice
  clamping, `IndexError` out of range).
* Python exceptions become the `Err` type; a raising operation returns the
  state as mutated so far together with the error, exactly as the Python
  object is left mutated when an exception propagates.
* The output stream is the list of code points written by `op_out`; the
  input stream is a list of pending lines (each a list of code points), with
  `readline` on an exhausted stream returning the empty line.
-/

/-- `Computer.MOD = 1 << 15`, the word modulus / memory size. -/
def MOD : Nat := 1 <<< 15

/-- `Computer.MSK = MOD - 1`, the 15-bit mask. -/
def MSK : Nat := MOD - 1

/-- Python exceptions that the interpreter can raise. -/
inductive Err where
  /-- `RuntimeError('Computer halted')` from `step` on the halt sentinel. -/
  | computerHalted
  /-- `IndexError`: list index out of range, or `pop` from an empty list. -/
  | indexError
  /-- `TypeError`: an action invoked with the wrong number of arguments. -/
  | typeError
  /-- `AssertionError` from the `assert` in `set_lit`. -/
  | assertionError
  /-- `RuntimeError('literal out of bounds')` from `get_lit` / `set_lit`. -/
  | litOutOfBounds
  /-- `RuntimeError('Cannot set a numeric literal')` from `set_lit`. -/
  | setNumericLiteral
  /-- `ZeroDivisionError` from `op_mod` with a zero divisor. -/
  | zeroDivision
  /-- `ValueError` from `chr` on a code point at or above `0x110000`. -/
  | valueError
  /-- `RuntimeError('Hit EOF!')` from `op_in` on an exhausted input. -/
  | hitEOF
deriving DecidableEq, Repr

/-- The machine state (`Computer.__slots__`, minus the raw io handles:
`istream` becomes `lines`, `ostream` becomes `output`, `debug` is print-only
and dropped). -/
structure Comp where
  num_steps : Nat
  eip : Int
  regs : Fin 8 → Nat
  stack : List Int
  mem : Nat → Nat
  cur_line : List Nat
  lines : List (List Nat)
  output : List Nat

/-- `Computer.__init__`: fresh machine, everything zeroed/empty. -/
def initComp : Comp :=
  { num_steps := 0, eip := 0, regs := fun _ => 0, stack := [],
    mem := fun _ => 0, cur_line := [], lines := [], output := [] }

/-- Load a word list into memory starting at address 0 (the word-level
content of `Computer.load`). -/
def loadList (c : Comp) (l : List Nat) : Comp :=
  { c with mem := fun i => if i < l.length then l.getD i 0 else c.mem i }

/-- Python list indexing for a list of length `n`: nonnegative indices below
`n` denote themselves, indices in `[-n, 0)` wrap, anything else raises
`IndexError` (returns `none`). The in-range test is phrased through `toNat`
(equivalent to `i < ↑n` for `0 ≤ i`). -/
def pyIndex (n : Nat) (i : Int) : Option Nat :=
  if 0 ≤ i then (if i.toNat < n then some i.toNat else none)
  else (if -(n : Int) ≤ i then some (i + n).toNat else none)

/-- Python slice-bound resolution for a list of length `n`: negative bounds
count from the end, everything clamps into `[0, n]`. -/
def pyClamp (n : Nat) (i : Int) : Nat :=
  if i < 0 then (if i + n < 0 then 0 else (i + n).toNat) else min i.toNat n

/-- `self.mem[i]` for an `Int` index (raising = `none`). -/
def memGet (c : Comp) (i : Int) : Option Nat :=
  (pyIndex MOD i).map c.mem

/-- `self.mem[a:b]`: Python slicing never raises, it clamps. -/
def memSlice (c : Comp) (a b : Int) : List Nat :=
  let lo := pyClamp MOD a
  let hi := pyClamp MOD b
  (List.range (hi - lo)).map (fun j => c.mem (lo + j))

/-- `Computer.get_lit`: a value below `MOD` denotes itself, `MOD + r` with
`r < 8` denotes register `r`, anything else raises. Reads no mutable state
other than the registers. -/
def get_lit (c : Comp) (literal : Nat) : Except Err Nat :=
  if literal < MOD then .ok literal
  else if h : literal < MOD + 8 then
    .ok (c.regs ⟨literal - MOD, by omega⟩)
  else .error .litOutOfBounds

/-- `Computer.set_lit`: assert `0 ≤ value < MOD`, then store into the named
register; writing to a numeric literal or an out-of-range literal raises.
The value is an `Int` because `op_pop` feeds popped stack entries here; the
upper bound is phrased through `toNat` (equivalent given the lower bound,
since `value < ↑MOD ↔ value.toNat < MOD` for `0 ≤ value`). -/
def set_lit (c : Comp) (literal : Nat) (value : Int) : Except Err Comp :=
  if ¬ (0 ≤ value ∧ value.toNat < MOD) then .error .assertionError
  else if h : MOD ≤ literal ∧ literal < MOD + 8 then
    .ok { c with regs := fun i => if (i : Nat) = literal - MOD then value.toNat else c.regs i }
  else if literal < MOD then .error .setNumericLiteral
  else .error .litOutOfBounds

/-- One entry of `Computer.ops`: opcode number, `fn.__name__`, operand
count. The semantic action itself is dispatched on the opcode in `execOp`. -/
structure Op where
  opcode : Nat
  name : String
  nargs : Nat

/-- `Computer.ops`: the static opcode table. The `name` field is the bound
function's `__name__`, hence the `op_` prefixes. -/
def ops : List Op := [
  ⟨0, "op_halt", 0⟩,
  ⟨1, "op_set", 2⟩,
  ⟨2, "op_push", 1⟩,
  ⟨3, "op_pop", 1⟩,
  ⟨4, "op_eq", 3⟩,
  ⟨5, "op_gt", 3⟩,
  ⟨6, "op_jmp", 1⟩,
  ⟨7, "op_jt", 2⟩,
  ⟨8, "op_jf", 2⟩,
  ⟨9, "op_add", 3⟩,
  ⟨10, "op_mult", 3⟩,
  ⟨11, "op_mod", 3⟩,
  ⟨12, "op_and", 3⟩,
  ⟨13, "op_or", 3⟩,
  ⟨14, "op_not", 2⟩,
  ⟨15, "op_rmem", 2⟩,
  ⟨16, "op_wmem", 2⟩,
  ⟨17, "op_call", 1⟩,
  ⟨18, "op_ret", 0⟩,
  ⟨19, "op_out", 1⟩,
  ⟨20, "op_in", 1⟩,
  ⟨21, "op_noop", 0⟩]

/-- Result of one semantic action: the state as mutated so far, the explicit
new instruction pointer if the action returned one, and the exception if it
raised. -/
structure OpRes where
  st : Comp
  neip : Option Int
  err : Option Err

/-- Exception-propagation helper: resolve literal `x` on machine `c`; on
success continue with `f`, on a raise keep `c` and surface the error. This
encodes how a raising `self.get_lit(...)` aborts the enclosing action. -/
def getThen (c : Comp) (x : Nat) (f : Nat → OpRes) : OpRes :=
  match get_lit c x with
  | .error e => ⟨c, none, some e⟩
  | .ok v => f v

/-- Exception-propagation helper for a trailing `self.set_lit(...)` call:
on success the action ends with the written state, on a raise the pre-write
state `c` is kept and the error surfaces. -/
def setDone (c : Comp) (r : Except Err Comp) : OpRes :=
  match r with
  | .error e => ⟨c, none, some e⟩
  | .ok c1 => ⟨c1, none, none⟩

/-- `Computer.op_halt`: return the halted sentinel as the new pointer. -/
def op_halt (c : Comp) : OpRes := ⟨c, some (-1), none⟩

/-- `Computer.op_set`: `set_lit(a, get_lit(b))`. -/
def op_set (c : Comp) (a b : Nat) : OpRes :=
  getThen c b fun v => setDone c (set_lit c a (v : Int))

/-- `Computer.op_push`: append `get_lit(a)` to the stack. -/
def op_push (c : Comp) (a : Nat) : OpRes :=
  getThen c a fun v => ⟨{ c with stack := c.stack ++ [(v : Int)] }, none, none⟩

/-- `Computer.op_pop`: `set_lit(a, stack.pop())`; the pop happens first (the
argument is evaluated before the call), and an empty stack raises
`IndexError`. -/
def op_pop (c : Comp) (a : Nat) : OpRes :=
  match c.stack.getLast? with
  | none => ⟨c, none, some .indexError⟩
  | some v =>
    setDone { c with stack := c.stack.dropLast }
      (set_lit { c with stack := c.stack.dropLast } a v)

/-- `Computer.op_eq`: `set_lit(a, 1 if get_lit(b) == get_lit(c) else 0)`. -/
def op_eq (c : Comp) (a b d : Nat) : OpRes :=
  getThen c b fun vb => getThen c d fun vd =>
    setDone c (set_lit c a (if vb = vd then 1 else 0))

/-- `Computer.op_gt`: `set_lit(a, 1 if get_lit(b) > get_lit(c) else 0)`. -/
def op_gt (c : Comp) (a b d : Nat) : OpRes :=
  getThen c b fun vb => getThen c d fun vd =>
    setDone c (set_lit c a (if vb > vd then 1 else 0))

/-- `Computer.op_jmp`: return `get_lit(a)` as the new pointer. -/
def op_jmp (c : Comp) (a : Nat) : OpRes :=
  getThen c a fun v => ⟨c, some (v : Int), none⟩

/-- `Computer.op_jt`: jump to `get_lit(b)` when `get_lit(a)` is nonzero;
`get_lit(b)` is only evaluated in that case. -/
def op_jt (c : Comp) (a b : Nat) : OpRes :=
  getThen c a fun va =>
    if va ≠ 0 then getThen c b fun vb => ⟨c, some (vb : Int), none⟩
    else ⟨c, none, none⟩

/-- `Computer.op_jf`: jump to `get_lit(b)` when `get_lit(a)` is zero. -/
def op_jf (c : Comp) (a b : Nat) : OpRes :=
  getThen c a fun va =>
    if va = 0 then getThen c b fun vb => ⟨c, some (vb : Int), none⟩
    else ⟨c, none, none⟩

/-- `Computer.op_add`: `set_lit(a, (get_lit(b) + get_lit(c)) & MSK)`. -/
def op_add (c : Comp) (a b d : Nat) : OpRes :=
  getThen c b fun vb => getThen c d fun vd =>
    setDone c (set_lit c a (((vb + vd) &&& MSK : Nat) : Int))

/-- `Computer.op_mult`: `set_lit(a, (get_lit(b) * get_lit(c)) & MSK)`. -/
def op_mult (c : Comp) (a b d : Nat) : OpRes :=
  getThen c b fun vb => getThen c d fun vd =>
    setDone c (set_lit c a (((vb * vd) &&& MSK : Nat) : Int))

/-- `Computer.op_mod`: `set_lit(a, (get_lit(b) % get_lit(c)) & MSK)`; a zero
divisor raises `ZeroDivisionError`. -/
def op_mod (c : Comp) (a b d : Nat) : OpRes :=
  getThen c b fun vb => getThen c d fun vd =>
    if vd = 0 then ⟨c, none, some .zeroDivision⟩
    else setDone c (set_lit c a (((vb % vd) &&& MSK : Nat) : Int))

/-- `Computer.op_and`: `set_lit(a, (get_lit(b) & get_lit(c)) & MSK)`. -/
def op_and (c : Comp) (a b d : Nat) : OpRes :=
  getThen c b fun vb => getThen c d fun vd =>
    setDone c (set_lit c a (((vb &&& vd) &&& MSK : Nat) : Int))

/-- `Computer.op_or`: `set_lit(a, (get_lit(b) | get_lit(c)) & MSK)`. -/
def op_or (c : Comp) (a b d : Nat) : OpRes :=
  getThen c b fun vb => getThen c d fun vd =>
    setDone c (set_lit c a (((vb ||| vd) &&& MSK : Nat) : Int))

/-- `Computer.op_not`: `set_lit(a, (~get_lit(b)) & MSK)`. For a nonnegative
Python int the low 15 bits of `~v` are the complement of the low 15 bits of
`v`, i.e. `MSK ^^^ (v &&& MSK)`. -/
def op_not (c : Comp) (a b : Nat) : OpRes :=
  getThen c b fun vb =>
    setDone c (set_lit c a ((MSK ^^^ (vb &&& MSK) : Nat) : Int))

/-- `Computer.op_rmem`: `set_lit(a, mem[get_lit(b)])`; a resolved address at
or beyond the end of memory raises `IndexError`. -/
def op_rmem (c : Comp) (a b : Nat) : OpRes :=
  getThen c b fun vb =>
    match memGet c (vb : Int) with
    | none => ⟨c, none, some .indexError⟩
    | some w => setDone c (set_lit c a (w : Int))

/-- `Computer.op_wmem`: `mem[get_lit(a)] = get_lit(b)`; Python evaluates the
right-hand side first, then the target subscript. -/
def op_wmem (c : Comp) (a b : Nat) : OpRes :=
  getThen c b fun vb => getThen c a fun va =>
    if va < MOD then
      ⟨{ c with mem := fun i => if i = va then vb else c.mem i }, none, none⟩
    else ⟨c, none, some .indexError⟩

/-- `Computer.op_call`: push the current (already advanced) pointer, then
jump to `get_lit(a)`; the push persists even when `get_lit` raises. -/
def op_call (c : Comp) (a : Nat) : OpRes :=
  getThen { c with stack := c.stack ++ [c.eip] } a fun v =>
    ⟨{ c with stack := c.stack ++ [c.eip] }, some (v : Int), none⟩

/-- `Computer.op_ret`: pop the return address and jump there; an empty stack
returns the halted sentinel instead of raising. -/
def op_ret (c : Comp) : OpRes :=
  match c.stack.getLast? with
  | none => ⟨c, some (-1), none⟩
  | some v => ⟨{ c with stack := c.stack.dropLast }, some v, none⟩

/-- `Computer.op_out`: append the code point `get_lit(a)` to the output
(`chr` raises `ValueError` at or above `0x110000`; the newline flush is an
io effect with no modelled state). -/
def op_out (c : Comp) (a : Nat) : OpRes :=
  getThen c a fun v =>
    if v < 1114112 then ⟨{ c with output := c.output ++ [v] }, none, none⟩
    else ⟨c, none, some .valueError⟩

/-- `Computer.op_in`: when the line buffer is empty pull the next line
(raising `Hit EOF!` on an exhausted stream — the assignment to `cur_line`
persists), then store the head character via `set_lit` and keep the tail;
on a `set_lit` raise the freshly pulled line stays whole in `cur_line`. -/
def op_in (c : Comp) (a : Nat) : OpRes :=
  if c.cur_line.isEmpty then
    match c.lines with
    | [] => ⟨c, none, some .hitEOF⟩
    | l :: rest =>
      match l with
      | [] => ⟨{ c with cur_line := l, lines := rest }, none, some .hitEOF⟩
      | ch :: lrest =>
        match set_lit { c with cur_line := ch :: lrest, lines := rest } a (ch : Int) with
        | .error e => ⟨{ c with cur_line := ch :: lrest, lines := rest }, none, some e⟩
        | .ok c2 => ⟨{ c2 with cur_line := lrest }, none, none⟩
  else
    match c.cur_line with
    | [] => ⟨c, none, some .indexError⟩
    | ch :: lrest =>
      match set_lit c a (ch : Int) with
      | .error e => ⟨c, none, some e⟩
      | .ok c1 => ⟨{ c1 with cur_line := lrest }, none, none⟩

/-- `Computer.op_noop`: no effect. -/
def op_noop (c : Comp) : OpRes := ⟨c, none, none⟩

/-- Dispatch an opcode to its action with the (already arity-checked) raw
operand list, mirroring the `ops` table. The catch-all arm is the
`TypeError` Python raises when `op(*args)` has the wrong argument count. -/
def execOp (k : Nat) (c : Comp) (args : List Nat) : OpRes :=
  match k, args with
  | 0, [] => op_halt c
  | 1, [a, b] => op_set c a b
  | 2, [a] => op_push c a
  | 3, [a] => op_pop c a
  | 4, [a, b, d] => op_eq c a b d
  | 5, [a, b, d] => op_gt c a b d
  | 6, [a] => op_jmp c a
  | 7, [a, b] => op_jt c a b
  | 8, [a, b] => op_jf c a b
  | 9, [a, b, d] => op_add c a b d
  | 10, [a, b, d] => op_mult c a b d
  | 11, [a, b, d] => op_mod c a b d
  | 12, [a, b, d] => op_and c a b d
  | 13, [a, b, d] => op_or c a b d
  | 14, [a, b] => op_not c a b
  | 15, [a, b] => op_rmem c a b
  | 16, [a, b] => op_wmem c a b
  | 17, [a] => op_call c a
  | 18, [] => op_ret c
  | 19, [a] => op_out c a
  | 20, [a] => op_in c a
  | 21, [] => op_noop c
  | _, _ => ⟨c, none, some .typeError⟩

/-- The tail of `Computer.step` once the operands have been fetched and the
arity has checked out: run the action, keep its state and error if it
raised, otherwise install an explicit new instruction pointer if the action
returned one, and count the step. -/
def stepCore (k : Nat) (c2 : Comp) (args : List Nat) : Comp × Option Err :=
  let r := execOp k c2 args
  match r.err with
  | some e => (r.st, some e)
  | none =>
    let c3 := match r.neip with
      | some n => { r.st with eip := n }
      | none => r.st
    ({ c3 with num_steps := c3.num_steps + 1 }, none)

/-- `Computer.step`: guard the halt sentinel, fetch the opcode, advance,
look the opcode up in `ops` (an out-of-range opcode raises `IndexError`
after the pointer was already advanced), slice the operands (Python slicing
truncates silently at the end of memory), advance past them, then hand off
to `stepCore` (a short operand list raises `TypeError` at the call). -/
def step (c : Comp) : Comp × Option Err :=
  if c.eip = -1 then (c, some .computerHalted)
  else
    match memGet c c.eip with
    | none => (c, some .indexError)
    | some opcode =>
      let c1 := { c with eip := c.eip + 1 }
      if h : opcode < ops.length then
        let op := ops.get ⟨opcode, h⟩
        let args := memSlice c1 c1.eip (c1.eip + op.nargs)
        let c2 := { c1 with eip := c1.eip + op.nargs }
        if args.length = op.nargs then stepCore opcode c2 args
        else (c2, some .typeError)
      else (c1, some .indexError)

/-- `Computer.run` with an explicit step count: iterate `step`, stopping at
the first exception. -/
def run (c : Comp) : Nat → Comp × Option Err
  | 0 => (c, none)
  | n + 1 =>
    match step c with
    | (c1, some e) => (c1, some e)
    | (c1, none) => run c1 n

/-- Operand rendering in `Computer.parse_text`: numeric literals below
`MOD / 2` as plain decimal, numeric literals in `[MOD / 2, MOD)` as the
signed value `arg - MOD`, register references as `R{n}`, anything else as
`?{arg}/R{arg - MOD}`. -/
def renderArg (arg : Nat) : String :=
  if arg < MOD then
    if arg ≥ MOD / 2 then toString ((arg : Int) - MOD) else toString arg
  else if arg < MOD + 8 then
    "R" ++ toString (arg - MOD)
  else
    "?" ++ toString arg ++ "/R" ++ toString (arg - MOD)

/-- The operand loop of `parse_text` (the body of the `try`): read `n`
operand words, appending each rendering to `s`; an `IndexError` on a fetch
is caught and turns into the ` EOM` suffix, ending the instruction early.
Returns the line, the position after the last fetch attempt, and whether the
operands were read completely. -/
def parseArgs (c : Comp) : Int → Nat → String → String × Int × Bool
  | pos, 0, s => (s, pos, true)
  | pos, n + 1, s =>
    match pyIndex MOD pos with
    | none => (s ++ " EOM", pos, false)
    | some idx => parseArgs c (pos + 1) n (s ++ " " ++ renderArg (c.mem idx))

/-- The `while cur_pos < start_pos + num_bytes` loop of `parse_text`.
`fuel` is a structural bound on the iteration count; the position advances
by at least one word per iteration, so `(stop - cur_pos).toNat` iterations
always suffice and the fuel-exhausted arm is unreachable from `parse_text`.
An opcode fetch outside memory is NOT inside the `try`, so it raises:
`([], some .indexError)`, with the lines printed so far prepended by the
callers below. Unknown opcodes print `ILLOP` and continue. -/
def parse_loop (c : Comp) (stop : Int) : Nat → Int → List String × Option Err
  | 0, _ => ([], none)
  | fuel + 1, cur_pos =>
    if cur_pos < stop then
      match pyIndex MOD cur_pos with
      | none => ([], some .indexError)
      | some idx =>
        let i := c.mem idx
        if h : i < ops.length then
          let op := ops.get ⟨i, h⟩
          let r := parseArgs c (cur_pos + 1) op.nargs (toString cur_pos ++ ": " ++ op.name)
          let rest := parse_loop c stop fuel r.2.1
          (r.1 :: rest.1, rest.2)
        else
          let rest := parse_loop c stop fuel (cur_pos + 1)
          ((toString cur_pos ++ ": ILLOP " ++ toString i) :: rest.1, rest.2)
    else ([], none)

/-- `Computer.parse_text`: resolve the optional / negative start position
against the instruction pointer, then scan `num_bytes` words. Returns the
printed lines and the exception, if one escaped. -/
def parse_text (c : Comp) (start_pos : Option Int) (num_bytes : Int) : List String × Option Err :=
  let sp : Int :=
    match start_pos with
    | none => c.eip
    | some s => if s < 0 then c.eip - s else s
  parse_loop c (sp + num_bytes) num_bytes.toNat sp

/-! ### Helper lemmas -/

theorem MOD_eq : MOD = 32768 := rfl

theorem MSK_eq : MSK = 32767 := rfl

theorem and_MSK_lt (x : Nat) : x &&& MSK < MOD := by
  have h : x &&& MSK ≤ MSK := Nat.and_le_right
  rw [MSK_eq] at h
  rw [MSK_eq, MOD_eq]
  omega

theorem xor_MSK_lt (x : Nat) : MSK ^^^ (x &&& MSK) < MOD := by
  have h2 : MSK ^^^ (x &&& MSK) < 2 ^ 15 :=
    Nat.xor_lt_two_pow (by rw [MSK_eq]; norm_num) (by
      have hw : x &&& MSK ≤ MSK := Nat.and_le_right
      rw [MSK_eq] at hw ⊢
      omega)
  rw [ MOD_eq]
  omega

theorem get_lit_num (c : Comp) (v : Nat) (h : v < MOD) : get_lit c v = .ok v := by
  unfold get_lit
  rw [if_pos h]

theorem get_lit_reg (c : Comp) (r : Nat) (h : r < 8) :
    get_lit c (MOD + r) = .ok (c.regs ⟨r, h⟩) := by
  unfold get_lit
  rw [if_neg (by omega), dif_pos (by omega)]
  have hidx : (⟨MOD + r - MOD, by omega⟩ : Fin 8) = ⟨r, h⟩ := by
    apply Fin.ext
    simp
  rw [hidx]

theorem get_lit_regs_congr (c d : Comp) (h : c.regs = d.regs) : get_lit c = get_lit d := by
  funext x
  unfold get_lit
  rw [h]

theorem set_lit_reg_ok (c : Comp) (a v : Nat) (ha1 : MOD ≤ a) (ha2 : a < MOD + 8)
    (hv : v < MOD) :
    set_lit c a (v : Int) =
      .ok { c with regs := fun i => if (i : Nat) = a - MOD then v else c.regs i } := by
  unfold set_lit
  rw [if_neg (not_not_intro ⟨Int.natCast_nonneg v, by rw [Int.toNat_natCast]; exact hv⟩),
    dif_pos ⟨ha1, ha2⟩]
  simp

theorem set_lit_regs_lt (c c1 : Comp) (a : Nat) (v : Int)
    (heq : set_lit c a v = .ok c1) (hregs : ∀ i, c.regs i < MOD) :
    ∀ i, c1.regs i < MOD := by
  intro i
  unfold set_lit at heq
  by_cases hval : 0 ≤ v ∧ v.toNat < MOD
  · rw [if_neg (not_not_intro hval)] at heq
    split at heq
    · cases heq
      show (if (i : Nat) = a - MOD then v.toNat else c.regs i) < MOD
      split
      · omega
      · exact hregs i
    · split at heq <;> exact absurd heq (by simp)
  · rw [if_pos hval] at heq
    exact absurd heq (by simp)

theorem pyIndex_natCast (n a : Nat) : pyIndex n (a : Int) = if a < n then some a else none := by
  unfold pyIndex
  rw [if_pos (Int.natCast_nonneg a)]
  by_cases h : a < n
  · rw [if_pos (by rw [Int.toNat_natCast]; exact h), if_pos h, Int.toNat_natCast]
  · rw [if_neg (by rw [Int.toNat_natCast]; exact h), if_neg h]

theorem memGet_nat (c : Comp) (p : Nat) (h : p < MOD) : memGet c (p : Int) = some (c.mem p) := by
  unfold memGet
  rw [pyIndex_natCast, if_pos h]
  rfl

theorem pyClamp_natCast (n a : Nat) : pyClamp n (a : Int) = min a n := by
  unfold pyClamp
  rw [if_neg (by omega)]
  simp

theorem memSlice_natCast (c : Comp) (a b : Nat) :
    memSlice c (a : Int) (b : Int) =
      (List.range (min b MOD - min a MOD)).map (fun j => c.mem (min a MOD + j)) := by
  unfold memSlice
  rw [pyClamp_natCast, pyClamp_natCast]

theorem step_eq (c : Comp) (p k : Nat) (hh : k < ops.length)
    (hp : c.eip = (p : Int)) (hk : c.mem p = k)
    (hargs : p + 1 + (ops.get ⟨k, hh⟩).nargs ≤ MOD) :
    step c = stepCore k { c with eip := ((p + 1 + (ops.get ⟨k, hh⟩).nargs : Nat) : Int) }
      ((List.range (ops.get ⟨k, hh⟩).nargs).map (fun j => c.mem (p + 1 + j))) := by
  have hpm : p < MOD := by omega
  unfold step
  rw [hp, if_neg (by omega), memGet_nat c p hpm, hk]
  simp only []
  rw [dif_pos hh]
  have hc1 : ((p : Int) + 1) = ((p + 1 : Nat) : Int) := by push_cast; ring
  rw [hc1]
  have hc2 : (((p + 1 : Nat) : Int) + ((ops.get ⟨k, hh⟩).nargs : Int)) =
      ((p + 1 + (ops.get ⟨k, hh⟩).nargs : Nat) : Int) := by push_cast; ring
  rw [hc2]
  rw [memSlice_natCast]
  rw [Nat.min_eq_left (by omega), Nat.min_eq_left (by omega)]
  rw [if_pos (by simp)]
  rw [show p + 1 + (ops.get ⟨k, hh⟩).nargs - (p + 1) = (ops.get ⟨k, hh⟩).nargs by omega]


theorem execOp_ret_eq (c : Comp) : execOp 18 c [] =
    (match c.stack.getLast? with
     | none => ⟨c, some (-1), none⟩
     | some v => ⟨{ c with stack := c.stack.dropLast }, some v, none⟩) := rfl

theorem execOp_pop_eq (c : Comp) (a : Nat) : execOp 3 c [a] =
    (match c.stack.getLast? with
     | none => ⟨c, none, some .indexError⟩
     | some v =>
       setDone { c with stack := c.stack.dropLast }
         (set_lit { c with stack := c.stack.dropLast } a v)) := rfl

theorem execOp_call_eq (c : Comp) (a : Nat) : execOp 17 c [a] =
    (match get_lit { c with stack := c.stack ++ [c.eip] } a with
     | .error e => ⟨{ c with stack := c.stack ++ [c.eip] }, none, some e⟩
     | .ok v => ⟨{ c with stack := c.stack ++ [c.eip] }, some (v : Int), none⟩) := rfl

theorem stepCore_call (c2 : Comp) (a t : Nat) (hres : get_lit c2 a = .ok t) :
    stepCore 17 c2 [a] =
      ({ c2 with
          stack := c2.stack ++ [c2.eip],
          eip := (t : Int),
          num_steps := c2.num_steps + 1 }, none) := by
  unfold stepCore
  rw [execOp_call_eq]
  rw [get_lit_regs_congr { c2 with stack := c2.stack ++ [c2.eip] } c2 rfl, hres]

theorem stepCore_ret_push (c2 : Comp) (l : List Int) (x : Int) (hstk : c2.stack = l ++ [x]) :
    stepCore 18 c2 [] =
      ({ c2 with
          stack := l,
          eip := x,
          num_steps := c2.num_steps + 1 }, none) := by
  unfold stepCore
  rw [execOp_ret_eq, hstk]
  rw [List.getLast?_concat, List.dropLast_concat]

/-! ### The claims -/

/-- C4: executing a `call` instruction and then the `ret` it jumps to (with
no intervening stack operations) leaves the instruction pointer at exactly
the address immediately following the call instruction and its operand
(`call` pushes that follow address before jumping to the resolved operand,
and `ret` pops it and jumps there), and the stack is restored. -/
theorem c4_call_ret (c : Comp) (p t : Nat)
    (hp : c.eip = (p : Int)) (hpm : p + 2 ≤ MOD)
    (hmem : c.mem p = 17)
    (hres : get_lit c (c.mem (p + 1)) = .ok t) (ht : t < MOD)
    (hret : c.mem t = 18) :
    (step c).2 = none ∧
    (step (step c).1).2 = none ∧
    (step (step c).1).1.eip = (p : Int) + 2 ∧
    (step (step c).1).1.stack = c.stack := by
  have hh17 : (17 : Nat) < ops.length := by decide
  have hh18 : (18 : Nat) < ops.length := by decide
  have h1 : step c =
      ({ c with
          stack := c.stack ++ [((p + 1 + 1 : Nat) : Int)],
          eip := (t : Int),
          num_steps := c.num_steps + 1 }, none) := by
    rw [step_eq c p 17 hh17 hp hmem
      (by rw [show (ops.get ⟨17, hh17⟩).nargs = 1 from rfl]; omega)]
    simp only [show (ops.get ⟨17, hh17⟩).nargs = 1 from rfl]
    rw [show List.map (fun j => c.mem (p + 1 + j)) (List.range 1) = [c.mem (p + 1)] from rfl]
    rw [stepCore_call _ _ t (by
      rw [get_lit_regs_congr { c with eip := ((p + 1 + 1 : Nat) : Int) } c rfl]
      exact hres)]
  have h2 : step ({ c with
          stack := c.stack ++ [((p + 1 + 1 : Nat) : Int)],
          eip := (t : Int),
          num_steps := c.num_steps + 1 } : Comp) =
      ({ c with
          stack := c.stack,
          eip := ((p + 1 + 1 : Nat) : Int),
          num_steps := c.num_steps + 1 + 1 }, none) := by
    rw [step_eq ({ c with
          stack := c.stack ++ [((p + 1 + 1 : Nat) : Int)],
          eip := (t : Int),
          num_steps := c.num_steps + 1 } : Comp) t 18 hh18 rfl hret
      (by rw [show (ops.get ⟨18, hh18⟩).nargs = 0 from rfl]; omega)]
    simp only [show (ops.get ⟨18, hh18⟩).nargs = 0 from rfl, List.range_zero, List.map_nil]
    rw [stepCore_ret_push _ c.stack ((p + 1 + 1 : Nat) : Int) rfl]
  rw [h1]
  rw [show (({ c with
          stack := c.stack ++ [((p + 1 + 1 : Nat) : Int)],
          eip := (t : Int),
          num_steps := c.num_steps + 1 }, (none : Option Err)) : Comp × Option Err).1 =
      ({ c with
          stack := c.stack ++ [((p + 1 + 1 : Nat) : Int)],
          eip := (t : Int),
          num_steps := c.num_steps + 1 } : Comp) from rfl]
  rw [h2]
  refine ⟨rfl, rfl, by push_cast; ring, rfl⟩

/-- C4 witness: a call at address 0 to a ret at address 100 brings the
pointer to 2, the address after the call and its operand. -/
theorem c4_call_ret_witness :
    (step (loadList { initComp with
        mem := fun i => if i = 100 then 18 else 0 } [17, 100])).2 = none ∧
    (step (step (loadList { initComp with
        mem := fun i => if i = 100 then 18 else 0 } [17, 100])).1).2 = none ∧
    (step (step (loadList { initComp with
        mem := fun i => if i = 100 then 18 else 0 } [17, 100])).1).1.eip = (0 : Int) + 2 ∧
    (step (step (loadList { initComp with
        mem := fun i => if i = 100 then 18 else 0 } [17, 100])).1).1.stack =
      (loadList { initComp with
        mem := fun i => if i = 100 then 18 else 0 } [17, 100]).stack :=
  c4_call_ret (loadList { initComp with
      mem := fun i => if i = 100 then 18 else 0 } [17, 100]) 0 100
    rfl (by decide) rfl rfl (by decide) rfl

/-- C5: `ret` on an empty stack behaves exactly like `halt` — the
instruction pointer becomes the halted sentinel `-1`, no error is raised,
and nothing else changes apart from the step counter — whereas `pop` on an
empty stack is a hard `IndexError` failure. -/
theorem c5_ret_empty_halts (c d : Comp) (p q : Nat)
    (hp : c.eip = (p : Int)) (hpm : p < MOD) (hmem : c.mem p = 18) (hstk : c.stack = [])
    (hq : d.eip = (q : Int)) (hqm : q + 2 ≤ MOD) (hdm : d.mem q = 3) (hdstk : d.stack = []) :
    step c = ({ c with eip := -1, num_steps := c.num_steps + 1 }, none) ∧
    (step d).2 = some Err.indexError := by
  have hh : (18 : Nat) < ops.length := by decide
  have hh3 : (3 : Nat) < ops.length := by decide
  constructor
  · rw [step_eq c p 18 hh hp hmem
      (by rw [show (ops.get ⟨18, hh⟩).nargs = 0 from rfl]; omega)]
    simp only [show (ops.get ⟨18, hh⟩).nargs = 0 from rfl, List.range_zero, List.map_nil]
    unfold stepCore
    rw [execOp_ret_eq]
    simp [hstk]
  · rw [step_eq d q 3 hh3 hq hdm
      (by rw [show (ops.get ⟨3, hh3⟩).nargs = 1 from rfl]; omega)]
    simp only [show (ops.get ⟨3, hh3⟩).nargs = 1 from rfl]
    rw [show List.map (fun j => d.mem (q + 1 + j)) (List.range 1) = [d.mem (q + 1)] from rfl]
    unfold stepCore
    rw [execOp_pop_eq]
    simp [hdstk]

/-- C5 witness: `ret` at address 0 with an empty stack halts without error;
`pop` at address 0 with an empty stack fails with `IndexError`. -/
theorem c5_ret_empty_halts_witness :
    step (loadList initComp [18]) =
      ({ loadList initComp [18] with
          eip := -1,
          num_steps := (loadList initComp [18]).num_steps + 1 }, none) ∧
    (step (loadList initComp [3, 32768])).2 = some Err.indexError :=
  c5_ret_empty_halts (loadList initComp [18]) (loadList initComp [3, 32768]) 0 0
    rfl (by decide) rfl rfl rfl (by decide) rfl rfl

/-- C1 counterexample: on a fresh machine whose word 0 is the unknown opcode
99, `step` fails, but the instruction pointer is left at 1 — the faulting
opcode's address plus one — not at the faulting address 0 as claimed. -/
theorem c1_counterexample :
    (step (loadList initComp [99])).2 = some Err.indexError ∧
    (step (loadList initComp [99])).1.eip ≠ 0 ∧
    (step (loadList initComp [99])).1.eip = 1 :=
  ⟨rfl, by decide, rfl⟩

/-- C1 (amended): stepping a machine whose current word is an opcode outside
0..21 fails with the `IndexError` of the opcode-table lookup (which carries
no address or value payload), and the instruction pointer is left at the
faulting opcode's address plus one — advanced past the opcode, not past any
operands. -/
theorem c1_illegal_opcode (c : Comp) (p k : Nat) (hp : c.eip = (p : Int))
    (hpm : p < MOD) (hk : c.mem p = k) (h22 : 22 ≤ k) :
    step c = ({ c with eip := (p : Int) + 1 }, some Err.indexError) := by
  unfold step
  rw [hp, if_neg (by omega), memGet_nat c p hpm, hk]
  simp only []
  rw [dif_neg (by rw [show ops.length = 22 from rfl]; omega)]

/-- C1 witness: the amended statement at the concrete machine with opcode 99
at address 0. -/
theorem c1_illegal_opcode_witness :
    step (loadList initComp [99]) =
      ({ loadList initComp [99] with eip := (0 : Int) + 1 }, some Err.indexError) :=
  c1_illegal_opcode (loadList initComp [99]) 0 99 rfl (by decide) rfl (by decide)

/-- C2 counterexample: disassembling `[9, 32768, 4, 5]` at address 0 does
not render `0: add R0 4 5`. -/
theorem c2_counterexample :
    (parse_text (loadList initComp [9, 32768, 4, 5]) (some 0) 4).1 ≠ ["0: add R0 4 5"] := by
  decide

/-- C2 (amended): disassembling `[9, 32768, 4, 5]` at address 0 renders
`0: op_add R0 4 5` — the mnemonic is the handler function's `__name__`,
which carries the `op_` prefix; the register reference is rendered `R0` and
the literals in `[0, 16384)` as plain decimal. -/
theorem c2_disasm_line :
    parse_text (loadList initComp [9, 32768, 4, 5]) (some 0) 4 =
      (["0: op_add R0 4 5"], none) := by
  decide

/-- C3 counterexample: disassembling 2 words starting at 32767 with an `add`
opcode at 32767 emits the partial instruction suffixed ` EOM`, but then the
scan does not stop: the next opcode fetch at address 32768 raises an
uncaught `IndexError`. -/
theorem c3_counterexample :
    parse_text { initComp with mem := fun i => if i = 32767 then 9 else 0 } (some 32767) 2 =
      (["32767: op_add EOM"], some Err.indexError) := by
  decide

/-- C7: literal resolution round-trips — a numeric literal below 32768 reads
as itself (and `get_lit` takes no mutable state besides the registers, so
the machine state is unchanged by construction), and a register write of an
in-range value through `set_lit` is read back unchanged by `get_lit`. -/
theorem c7_literal_roundtrip (c : Comp) (v r x : Nat)
    (hv : v < MOD) (hr : r < 8) (hx : x < MOD) :
    get_lit c v = .ok v ∧
    ∃ c1, set_lit c (MOD + r) (x : Int) = .ok c1 ∧ get_lit c1 (MOD + r) = .ok x := by
  refine ⟨get_lit_num c v hv, ?_⟩
  refine ⟨_, set_lit_reg_ok c (MOD + r) x (by omega) (by omega) hx, ?_⟩
  rw [get_lit_reg _ r hr]
  simp

/-- C7 witness: the round-trip at literal 5, register 3, value 7. -/
theorem c7_literal_roundtrip_witness :
    get_lit initComp 5 = .ok 5 ∧
    ∃ c1, set_lit initComp (MOD + 3) ((7 : Nat) : Int) = .ok c1 ∧
      get_lit c1 (MOD + 3) = .ok 7 :=
  c7_literal_roundtrip initComp 5 3 7 (by decide) (by decide) (by decide)

/-- C8: on a fresh machine loaded with `[9, 32768, 4, 5, 19, 32768, 0]`
(`add R0 4 5` then `out R0`), two steps leave register 0 holding 9 and emit
the single code point 9 to the output sink, with no error. -/
theorem c8_add_out_scenario :
    (run (loadList initComp [9, 32768, 4, 5, 19, 32768, 0]) 2).2 = none ∧
    (run (loadList initComp [9, 32768, 4, 5, 19, 32768, 0]) 2).1.regs 0 = 9 ∧
    (run (loadList initComp [9, 32768, 4, 5, 19, 32768, 0]) 2).1.output = [9] :=
  ⟨rfl, rfl, rfl⟩

/-- C10: when an instruction's operand words would extend past the last
memory address, the operand slice silently truncates at the end of memory,
and invoking the action with fewer arguments than its declared arity fails
with `TypeError` — not with any of the interpreter's semantic errors — with
the pointer already advanced past the opcode and the declared operands;
there is no end-of-memory check in the execution path. -/
theorem c10_truncated_args (c : Comp) (p k : Nat) (hh : k < ops.length)
    (hp : c.eip = (p : Int)) (hpm : p < MOD) (hk : c.mem p = k)
    (hover : MOD < p + 1 + (ops.get ⟨k, hh⟩).nargs) :
    (step c).2 = some Err.typeError ∧
    (step c).1.eip = (p : Int) + 1 + ((ops.get ⟨k, hh⟩).nargs : Int) := by
  unfold step
  rw [hp, if_neg (by omega), memGet_nat c p hpm, hk]
  simp only []
  rw [dif_pos hh]
  have hc1 : ((p : Int) + 1) = ((p + 1 : Nat) : Int) := by push_cast; ring
  rw [hc1]
  have hc2 : (((p + 1 : Nat) : Int) + ((ops.get ⟨k, hh⟩).nargs : Int)) =
      ((p + 1 + (ops.get ⟨k, hh⟩).nargs : Nat) : Int) := by push_cast; ring
  rw [hc2]
  rw [memSlice_natCast]
  rw [show min (p + 1 + (ops.get ⟨k, hh⟩).nargs) MOD = MOD from by omega]
  rw [show min (p + 1) MOD = p + 1 from by omega]
  rw [if_neg (show ¬ ((List.map (fun j => c.mem (p + 1 + j))
      (List.range (MOD - (p + 1)))).length = (ops.get ⟨k, hh⟩).nargs) from by
    rw [List.length_map, List.length_range]
    omega)]
  constructor
  · rfl
  · show ((p + 1 + (ops.get ⟨k, hh⟩).nargs : Nat) : Int) = _
    push_cast
    ring

/-- C10 witness: an `add` opcode at address 32766 has only one of its three
operand words inside memory; the step fails with `TypeError` and the
pointer rests at 32770. -/
theorem c10_truncated_args_witness :
    (step { initComp with
        eip := 32766,
        mem := fun i => if i = 32766 then 9 else 0 }).2 = some Err.typeError ∧
    (step { initComp with
        eip := 32766,
        mem := fun i => if i = 32766 then 9 else 0 }).1.eip = (32766 : Int) + 1 + 3 :=
  c10_truncated_args { initComp with
      eip := 32766,
      mem := fun i => if i = 32766 then 9 else 0 } 32766 9
    (by decide) rfl (by decide) rfl (by decide)

theorem getThen_ok (c : Comp) (x v : Nat) (h : get_lit c x = .ok v) (f : Nat → OpRes) :
    getThen c x f = f v := by
  unfold getThen
  rw [h]

theorem setDone_ok (c c1 : Comp) (r : Except Err Comp) (h : r = .ok c1) :
    setDone c r = ⟨c1, none, none⟩ := by
  unfold setDone
  rw [h]

/-- C6: for resolved operand reads `vb`, `vd` and a register destination,
the results stored by `add`, `mult`, `mod` (nonzero divisor), `and`, `or`
and `not` are always in `[0, 32768)` — each op succeeds and writes exactly
its masked/reduced result. -/
theorem c6_arith_range (c : Comp) (a b d vb vd : Nat)
    (ha1 : MOD ≤ a) (ha2 : a < MOD + 8)
    (hb : get_lit c b = .ok vb) (hd : get_lit c d = .ok vd) (hnz : vd ≠ 0) :
    (execOp 9 c [a, b, d] =
        ⟨{ c with regs := fun i =>
            if (i : Nat) = a - MOD then (vb + vd) &&& MSK else c.regs i }, none, none⟩ ∧
      (vb + vd) &&& MSK < MOD) ∧
    (execOp 10 c [a, b, d] =
        ⟨{ c with regs := fun i =>
            if (i : Nat) = a - MOD then (vb * vd) &&& MSK else c.regs i }, none, none⟩ ∧
      (vb * vd) &&& MSK < MOD) ∧
    (execOp 11 c [a, b, d] =
        ⟨{ c with regs := fun i =>
            if (i : Nat) = a - MOD then (vb % vd) &&& MSK else c.regs i }, none, none⟩ ∧
      (vb % vd) &&& MSK < MOD) ∧
    (execOp 12 c [a, b, d] =
        ⟨{ c with regs := fun i =>
            if (i : Nat) = a - MOD then (vb &&& vd) &&& MSK else c.regs i }, none, none⟩ ∧
      (vb &&& vd) &&& MSK < MOD) ∧
    (execOp 13 c [a, b, d] =
        ⟨{ c with regs := fun i =>
            if (i : Nat) = a - MOD then (vb ||| vd) &&& MSK else c.regs i }, none, none⟩ ∧
      (vb ||| vd) &&& MSK < MOD) ∧
    (execOp 14 c [a, b] =
        ⟨{ c with regs := fun i =>
            if (i : Nat) = a - MOD then MSK ^^^ (vb &&& MSK) else c.regs i }, none, none⟩ ∧
      MSK ^^^ (vb &&& MSK) < MOD) := by
  refine ⟨⟨?_, and_MSK_lt _⟩, ⟨?_, and_MSK_lt _⟩, ⟨?_, and_MSK_lt _⟩,
    ⟨?_, and_MSK_lt _⟩, ⟨?_, and_MSK_lt _⟩, ⟨?_, xor_MSK_lt _⟩⟩
  · show op_add c a b d = _
    unfold op_add
    simp only [getThen_ok c b vb hb, getThen_ok c d vd hd,
      setDone_ok c _ _ (set_lit_reg_ok c a ((vb + vd) &&& MSK) ha1 ha2 (and_MSK_lt _))]
  · show op_mult c a b d = _
    unfold op_mult
    simp only [getThen_ok c b vb hb, getThen_ok c d vd hd,
      setDone_ok c _ _ (set_lit_reg_ok c a ((vb * vd) &&& MSK) ha1 ha2 (and_MSK_lt _))]
  · show op_mod c a b d = _
    unfold op_mod
    simp only [getThen_ok c b vb hb, getThen_ok c d vd hd, if_neg hnz,
      setDone_ok c _ _ (set_lit_reg_ok c a ((vb % vd) &&& MSK) ha1 ha2 (and_MSK_lt _))]
  · show op_and c a b d = _
    unfold op_and
    simp only [getThen_ok c b vb hb, getThen_ok c d vd hd,
      setDone_ok c _ _ (set_lit_reg_ok c a ((vb &&& vd) &&& MSK) ha1 ha2 (and_MSK_lt _))]
  · show op_or c a b d = _
    unfold op_or
    simp only [getThen_ok c b vb hb, getThen_ok c d vd hd,
      setDone_ok c _ _ (set_lit_reg_ok c a ((vb ||| vd) &&& MSK) ha1 ha2 (and_MSK_lt _))]
  · show op_not c a b = _
    unfold op_not
    simp only [getThen_ok c b vb hb,
      setDone_ok c _ _ (set_lit_reg_ok c a (MSK ^^^ (vb &&& MSK)) ha1 ha2 (xor_MSK_lt _))]

/-- C6 witness: with destination register 0 and literal operands 4 and 5,
`add` stores 9, `mod` stores 4 and `not` stores 32763, all without error. -/
theorem c6_arith_range_witness :
    (execOp 9 initComp [ MOD, 4, 5]).err = none ∧
    (execOp 9 initComp [ MOD, 4, 5]).st.regs 0 = 9 ∧
    (execOp 11 initComp [ MOD, 4, 5]).st.regs 0 = 4 ∧
    (execOp 14 initComp [ MOD, 4]).st.regs 0 = 32763 := by
  have h := c6_arith_range initComp MOD 4 5 4 5 (le_refl MOD) (by decide)
    rfl rfl (by decide)
  refine ⟨?_, ?_, ?_, ?_⟩
  · rw [h.1.1]
  · rw [h.1.1]
    decide
  · rw [h.2.2.1.1]
    decide
  · rw [h.2.2.2.2.2.1]
    decide

theorem parseArgs_pos_ge (c : Comp) (n : Nat) : ∀ (pos : Int) (s : String),
    pos ≤ (parseArgs c pos n s).2.1 := by
  induction n with
  | zero => intro pos s; exact le_refl _
  | succ n ih =>
    intro pos s
    unfold parseArgs
    split
    · exact le_refl _
    · exact le_trans (by omega) (ih (pos + 1) _)

theorem parse_loop_no_err (c : Comp) (stop : Int) (hstop : stop ≤ (MOD : Int)) :
    ∀ (fuel : Nat) (cur : Int), 0 ≤ cur → (parse_loop c stop fuel cur).2 = none := by
  intro fuel
  induction fuel with
  | zero => intro cur _; rfl
  | succ fuel ih =>
    intro cur hcur
    unfold parse_loop
    split
    · rename_i hlt
      rw [show pyIndex MOD cur = some cur.toNat from by
        unfold pyIndex
        rw [if_pos hcur, if_pos (by omega)]]
      simp only []
      split
      · exact ih _ (le_trans (by omega) (parseArgs_pos_ge c _ (cur + 1) _))
      · exact ih (cur + 1) (by omega)
    · rfl

/-- C3 (amended): as long as the scan window lies within memory
(`0 ≤ start` and `start + span ≤ 32768`) the disassembler never raises: an
operand fetch past the end of memory is caught and rendered as the ` EOM`
suffix, and the scan stops. For a window extending past the end of memory,
however, the unguarded opcode fetch at an address ≥ 32768 raises an uncaught
`IndexError` (see the counterexample). -/
theorem c3_parse_text_safe (c : Comp) (sp nb : Int) (hsp : 0 ≤ sp)
    (hnb : sp + nb ≤ (MOD : Int)) :
    (parse_text c (some sp) nb).2 = none := by
  unfold parse_text
  have hm : (match (some sp : Option Int) with
      | none => c.eip
      | some s => if s < 0 then c.eip - s else s) = sp := by
    show (if sp < 0 then c.eip - sp else sp) = sp
    rw [if_neg (by omega)]
  rw [hm]
  exact parse_loop_no_err c (sp + nb) hnb nb.toNat sp hsp

/-- C3 witness: a 40-word scan of the `add R0 4 5` image from address 0
completes without error. -/
theorem c3_parse_text_safe_witness :
    (parse_text (loadList initComp [9, 32768, 4, 5]) (some 0) 40).2 = none :=
  c3_parse_text_safe (loadList initComp [9, 32768, 4, 5]) 0 40 (by decide) (by decide)

theorem op_halt_regs (c : Comp) (hregs : ∀ i, c.regs i < MOD) :
    (op_halt c).err = none → ∀ i, (op_halt c).st.regs i < MOD := by
  unfold op_halt
  try unfold getThen
  try unfold setDone
  beta_reduce
  repeat' split
  all_goals intro h
  all_goals try simp at h
  all_goals intro i
  all_goals
    first
      | exact hregs i
      | (rename_i heq; exact set_lit_regs_lt _ _ _ _ heq (fun j => hregs j) i)
      | (rename_i c9aux heq; exact set_lit_regs_lt _ _ _ _ heq (fun j => hregs j) i)

theorem op_set_regs (c : Comp) (a b : Nat) (hregs : ∀ i, c.regs i < MOD) :
    (op_set c a b).err = none → ∀ i, (op_set c a b).st.regs i < MOD := by
  unfold op_set
  try unfold getThen
  try unfold setDone
  beta_reduce
  repeat' split
  all_goals intro h
  all_goals try simp at h
  all_goals intro i
  all_goals
    first
      | exact hregs i
      | (rename_i heq; exact set_lit_regs_lt _ _ _ _ heq (fun j => hregs j) i)
      | (rename_i c9aux heq; exact set_lit_regs_lt _ _ _ _ heq (fun j => hregs j) i)

theorem op_push_regs (c : Comp) (a : Nat) (hregs : ∀ i, c.regs i < MOD) :
    (op_push c a).err = none → ∀ i, (op_push c a).st.regs i < MOD := by
  unfold op_push
  try unfold getThen
  try unfold setDone
  beta_reduce
  repeat' split
  all_goals intro h
  all_goals try simp at h
  all_goals intro i
  all_goals
    first
      | exact hregs i
      | (rename_i heq; exact set_lit_regs_lt _ _ _ _ heq (fun j => hregs j) i)
      | (rename_i c9aux heq; exact set_lit_regs_lt _ _ _ _ heq (fun j => hregs j) i)

theorem op_pop_regs (c : Comp) (a : Nat) (hregs : ∀ i, c.regs i < MOD) :
    (op_pop c a).err = none → ∀ i, (op_pop c a).st.regs i < MOD := by
  unfold op_pop
  try unfold getThen
  try unfold setDone
  beta_reduce
  repeat' split
  all_goals intro h
  all_goals try simp at h
  all_goals intro i
  all_goals
    first
      | exact hregs i
      | (rename_i heq; exact set_lit_regs_lt _ _ _ _ heq (fun j => hregs j) i)
      | (rename_i c9aux heq; exact set_lit_regs_lt _ _ _ _ heq (fun j => hregs j) i)

theorem op_eq_regs (c : Comp) (a b d : Nat) (hregs : ∀ i, c.regs i < MOD) :
    (op_eq c a b d).err = none → ∀ i, (op_eq c a b d).st.regs i < MOD := by
  unfold op_eq
  try unfold getThen
  try unfold setDone
  beta_reduce
  repeat' split
  all_goals intro h
  all_goals try simp at h
  all_goals intro i
  all_goals
    first
      | exact hregs i
      | (rename_i heq; exact set_lit_regs_lt _ _ _ _ heq (fun j => hregs j) i)
      | (rename_i c9aux heq; exact set_lit_regs_lt _ _ _ _ heq (fun j => hregs j) i)

theorem op_gt_regs (c : Comp) (a b d : Nat) (hregs : ∀ i, c.regs i < MOD) :
    (op_gt c a b d).err = none → ∀ i, (op_gt c a b d).st.regs i < MOD := by
  unfold op_gt
  try unfold getThen
  try unfold setDone
  beta_reduce
  repeat' split
  all_goals intro h
  all_goals try simp at h
  all_goals intro i
  all_goals
    first
      | exact hregs i
      | (rename_i heq; exact set_lit_regs_lt _ _ _ _ heq (fun j => hregs j) i)
      | (rename_i c9aux heq; exact set_lit_regs_lt _ _ _ _ heq (fun j => hregs j) i)

theorem op_jmp_regs (c : Comp) (a : Nat) (hregs : ∀ i, c.regs i < MOD) :
    (op_jmp c a).err = none → ∀ i, (op_jmp c a).st.regs i < MOD := by
  unfold op_jmp
  try unfold getThen
  try unfold setDone
  beta_reduce
  repeat' split
  all_goals intro h
  all_goals try simp at h
  all_goals intro i
  all_goals
    first
      | exact hregs i
      | (rename_i heq; exact set_lit_regs_lt _ _ _ _ heq (fun j => hregs j) i)
      | (rename_i c9aux heq; exact set_lit_regs_lt _ _ _ _ heq (fun j => hregs j) i)

theorem op_jt_regs (c : Comp) (a b : Nat) (hregs : ∀ i, c.regs i < MOD) :
    (op_jt c a b).err = none → ∀ i, (op_jt c a b).st.regs i < MOD := by
  unfold op_jt
  try unfold getThen
  try unfold setDone
  beta_reduce
  repeat' split
  all_goals intro h
  all_goals try simp at h
  all_goals intro i
  all_goals
    first
      | exact hregs i
      | (rename_i heq; exact set_lit_regs_lt _ _ _ _ heq (fun j => hregs j) i)
      | (rename_i c9aux heq; exact set_lit_regs_lt _ _ _ _ heq (fun j => hregs j) i)

theorem op_jf_regs (c : Comp) (a b : Nat) (hregs : ∀ i, c.regs i < MOD) :
    (op_jf c a b).err = none → ∀ i, (op_jf c a b).st.regs i < MOD := by
  unfold op_jf
  try unfold getThen
  try unfold setDone
  beta_reduce
  repeat' split
  all_goals intro h
  all_goals try simp at h
  all_goals intro i
  all_goals
    first
      | exact hregs i
      | (rename_i heq; exact set_lit_regs_lt _ _ _ _ heq (fun j => hregs j) i)
      | (rename_i c9aux heq; exact set_lit_regs_lt _ _ _ _ heq (fun j => hregs j) i)

theorem op_add_regs (c : Comp) (a b d : Nat) (hregs : ∀ i, c.regs i < MOD) :
    (op_add c a b d).err = none → ∀ i, (op_add c a b d).st.regs i < MOD := by
  unfold op_add
  try unfold getThen
  try unfold setDone
  beta_reduce
  repeat' split
  all_goals intro h
  all_goals try simp at h
  all_goals intro i
  all_goals
    first
      | exact hregs i
      | (rename_i heq; exact set_lit_regs_lt _ _ _ _ heq (fun j => hregs j) i)
      | (rename_i c9aux heq; exact set_lit_regs_lt _ _ _ _ heq (fun j => hregs j) i)

theorem op_mult_regs (c : Comp) (a b d : Nat) (hregs : ∀ i, c.regs i < MOD) :
    (op_mult c a b d).err = none → ∀ i, (op_mult c a b d).st.regs i < MOD := by
  unfold op_mult
  try unfold getThen
  try unfold setDone
  beta_reduce
  repeat' split
  all_goals intro h
  all_goals try simp at h
  all_goals intro i
  all_goals
    first
      | exact hregs i
      | (rename_i heq; exact set_lit_regs_lt _ _ _ _ heq (fun j => hregs j) i)
      | (rename_i c9aux heq; exact set_lit_regs_lt _ _ _ _ heq (fun j => hregs j) i)

theorem op_mod_regs (c : Comp) (a b d : Nat) (hregs : ∀ i, c.regs i < MOD) :
    (op_mod c a b d).err = none → ∀ i, (op_mod c a b d).st.regs i < MOD := by
  unfold op_mod
  try unfold getThen
  try unfold setDone
  beta_reduce
  repeat' split
  all_goals intro h
  all_goals try simp at h
  all_goals intro i
  all_goals
    first
      | exact hregs i
      | (rename_i heq; exact set_lit_regs_lt _ _ _ _ heq (fun j => hregs j) i)
      | (rename_i c9aux heq; exact set_lit_regs_lt _ _ _ _ heq (fun j => hregs j) i)

theorem op_and_regs (c : Comp) (a b d : Nat) (hregs : ∀ i, c.regs i < MOD) :
    (op_and c a b d).err = none → ∀ i, (op_and c a b d).st.regs i < MOD := by
  unfold op_and
  try unfold getThen
  try unfold setDone
  beta_reduce
  repeat' split
  all_goals intro h
  all_goals try simp at h
  all_goals intro i
  all_goals
    first
      | exact hregs i
      | (rename_i heq; exact set_lit_regs_lt _ _ _ _ heq (fun j => hregs j) i)
      | (rename_i c9aux heq; exact set_lit_regs_lt _ _ _ _ heq (fun j => hregs j) i)

theorem op_or_regs (c : Comp) (a b d : Nat) (hregs : ∀ i, c.regs i < MOD) :
    (op_or c a b d).err = none → ∀ i, (op_or c a b d).st.regs i < MOD := by
  unfold op_or
  try unfold getThen
  try unfold setDone
  beta_reduce
  repeat' split
  all_goals intro h
  all_goals try simp at h
  all_goals intro i
  all_goals
    first
      | exact hregs i
      | (rename_i heq; exact set_lit_regs_lt _ _ _ _ heq (fun j => hregs j) i)
      | (rename_i c9aux heq; exact set_lit_regs_lt _ _ _ _ heq (fun j => hregs j) i)

theorem op_not_regs (c : Comp) (a b : Nat) (hregs : ∀ i, c.regs i < MOD) :
    (op_not c a b).err = none → ∀ i, (op_not c a b).st.regs i < MOD := by
  unfold op_not
  try unfold getThen
  try unfold setDone
  beta_reduce
  repeat' split
  all_goals intro h
  all_goals try simp at h
  all_goals intro i
  all_goals
    first
      | exact hregs i
      | (rename_i heq; exact set_lit_regs_lt _ _ _ _ heq (fun j => hregs j) i)
      | (rename_i c9aux heq; exact set_lit_regs_lt _ _ _ _ heq (fun j => hregs j) i)

theorem op_rmem_regs (c : Comp) (a b : Nat) (hregs : ∀ i, c.regs i < MOD) :
    (op_rmem c a b).err = none → ∀ i, (op_rmem c a b).st.regs i < MOD := by
  unfold op_rmem
  try unfold getThen
  try unfold setDone
  beta_reduce
  repeat' split
  all_goals intro h
  all_goals try simp at h
  all_goals intro i
  all_goals
    first
      | exact hregs i
      | (rename_i heq; exact set_lit_regs_lt _ _ _ _ heq (fun j => hregs j) i)
      | (rename_i c9aux heq; exact set_lit_regs_lt _ _ _ _ heq (fun j => hregs j) i)

theorem op_wmem_regs (c : Comp) (a b : Nat) (hregs : ∀ i, c.regs i < MOD) :
    (op_wmem c a b).err = none → ∀ i, (op_wmem c a b).st.regs i < MOD := by
  unfold op_wmem
  try unfold getThen
  try unfold setDone
  beta_reduce
  repeat' split
  all_goals intro h
  all_goals try simp at h
  all_goals intro i
  all_goals
    first
      | exact hregs i
      | (rename_i heq; exact set_lit_regs_lt _ _ _ _ heq (fun j => hregs j) i)
      | (rename_i c9aux heq; exact set_lit_regs_lt _ _ _ _ heq (fun j => hregs j) i)

theorem op_call_regs (c : Comp) (a : Nat) (hregs : ∀ i, c.regs i < MOD) :
    (op_call c a).err = none → ∀ i, (op_call c a).st.regs i < MOD := by
  unfold op_call
  try unfold getThen
  try unfold setDone
  beta_reduce
  repeat' split
  all_goals intro h
  all_goals try simp at h
  all_goals intro i
  all_goals
    first
      | exact hregs i
      | (rename_i heq; exact set_lit_regs_lt _ _ _ _ heq (fun j => hregs j) i)
      | (rename_i c9aux heq; exact set_lit_regs_lt _ _ _ _ heq (fun j => hregs j) i)

theorem op_ret_regs (c : Comp) (hregs : ∀ i, c.regs i < MOD) :
    (op_ret c).err = none → ∀ i, (op_ret c).st.regs i < MOD := by
  unfold op_ret
  try unfold getThen
  try unfold setDone
  beta_reduce
  repeat' split
  all_goals intro h
  all_goals try simp at h
  all_goals intro i
  all_goals
    first
      | exact hregs i
      | (rename_i heq; exact set_lit_regs_lt _ _ _ _ heq (fun j => hregs j) i)
      | (rename_i c9aux heq; exact set_lit_regs_lt _ _ _ _ heq (fun j => hregs j) i)

theorem op_out_regs (c : Comp) (a : Nat) (hregs : ∀ i, c.regs i < MOD) :
    (op_out c a).err = none → ∀ i, (op_out c a).st.regs i < MOD := by
  unfold op_out
  try unfold getThen
  try unfold setDone
  beta_reduce
  repeat' split
  all_goals intro h
  all_goals try simp at h
  all_goals intro i
  all_goals
    first
      | exact hregs i
      | (rename_i heq; exact set_lit_regs_lt _ _ _ _ heq (fun j => hregs j) i)
      | (rename_i c9aux heq; exact set_lit_regs_lt _ _ _ _ heq (fun j => hregs j) i)

theorem op_in_regs (c : Comp) (a : Nat) (hregs : ∀ i, c.regs i < MOD) :
    (op_in c a).err = none → ∀ i, (op_in c a).st.regs i < MOD := by
  unfold op_in
  try unfold getThen
  try unfold setDone
  beta_reduce
  repeat' split
  all_goals intro h
  all_goals try simp at h
  all_goals intro i
  all_goals
    first
      | exact hregs i
      | (rename_i heq; exact set_lit_regs_lt _ _ _ _ heq (fun j => hregs j) i)
      | (rename_i c9aux heq; exact set_lit_regs_lt _ _ _ _ heq (fun j => hregs j) i)

theorem op_noop_regs (c : Comp) (hregs : ∀ i, c.regs i < MOD) :
    (op_noop c).err = none → ∀ i, (op_noop c).st.regs i < MOD := by
  unfold op_noop
  try unfold getThen
  try unfold setDone
  beta_reduce
  repeat' split
  all_goals intro h
  all_goals try simp at h
  all_goals intro i
  all_goals
    first
      | exact hregs i
      | (rename_i heq; exact set_lit_regs_lt _ _ _ _ heq (fun j => hregs j) i)
      | (rename_i c9aux heq; exact set_lit_regs_lt _ _ _ _ heq (fun j => hregs j) i)

set_option maxHeartbeats 1600000 in
theorem execOp_regs_lt (k : Nat) (c : Comp) (args : List Nat)
    (hregs : ∀ i, c.regs i < MOD) :
    (execOp k c args).err = none → ∀ i, (execOp k c args).st.regs i < MOD := by
  rcases args with _ | ⟨a, _ | ⟨b, _ | ⟨d, _ | ⟨e, rest⟩⟩⟩⟩
  · rcases k with _ | _ | _ | _ | _ | _ | _ | _ | _ | _ | _ | _ | _ | _ | _ | _ | _ | _ | _ | _ | _ | _ | k
    · exact op_halt_regs c hregs
    · intro h
      cases h
    · intro h
      cases h
    · intro h
      cases h
    · intro h
      cases h
    · intro h
      cases h
    · intro h
      cases h
    · intro h
      cases h
    · intro h
      cases h
    · intro h
      cases h
    · intro h
      cases h
    · intro h
      cases h
    · intro h
      cases h
    · intro h
      cases h
    · intro h
      cases h
    · intro h
      cases h
    · intro h
      cases h
    · intro h
      cases h
    · exact op_ret_regs c hregs
    · intro h
      cases h
    · intro h
      cases h
    · exact op_noop_regs c hregs
    · intro h
      cases h
  · rcases k with _ | _ | _ | _ | _ | _ | _ | _ | _ | _ | _ | _ | _ | _ | _ | _ | _ | _ | _ | _ | _ | _ | k
    · intro h
      cases h
    · intro h
      cases h
    · exact op_push_regs c a hregs
    · exact op_pop_regs c a hregs
    · intro h
      cases h
    · intro h
      cases h
    · exact op_jmp_regs c a hregs
    · intro h
      cases h
    · intro h
      cases h
    · intro h
      cases h
    · intro h
      cases h
    · intro h
      cases h
    · intro h
      cases h
    · intro h
      cases h
    · intro h
      cases h
    · intro h
      cases h
    · intro h
      cases h
    · exact op_call_regs c a hregs
    · intro h
      cases h
    · exact op_out_regs c a hregs
    · exact op_in_regs c a hregs
    · intro h
      cases h
    · intro h
      cases h
  · rcases k with _ | _ | _ | _ | _ | _ | _ | _ | _ | _ | _ | _ | _ | _ | _ | _ | _ | _ | _ | _ | _ | _ | k
    · intro h
      cases h
    · exact op_set_regs c a b hregs
    · intro h
      cases h
    · intro h
      cases h
    · intro h
      cases h
    · intro h
      cases h
    · intro h
      cases h
    · exact op_jt_regs c a b hregs
    · exact op_jf_regs c a b hregs
    · intro h
      cases h
    · intro h
      cases h
    · intro h
      cases h
    · intro h
      cases h
    · intro h
      cases h
    · exact op_not_regs c a b hregs
    · exact op_rmem_regs c a b hregs
    · exact op_wmem_regs c a b hregs
    · intro h
      cases h
    · intro h
      cases h
    · intro h
      cases h
    · intro h
      cases h
    · intro h
      cases h
    · intro h
      cases h
  · rcases k with _ | _ | _ | _ | _ | _ | _ | _ | _ | _ | _ | _ | _ | _ | _ | _ | _ | _ | _ | _ | _ | _ | k
    · intro h
      cases h
    · intro h
      cases h
    · intro h
      cases h
    · intro h
      cases h
    · exact op_eq_regs c a b d hregs
    · exact op_gt_regs c a b d hregs
    · intro h
      cases h
    · intro h
      cases h
    · intro h
      cases h
    · exact op_add_regs c a b d hregs
    · exact op_mult_regs c a b d hregs
    · exact op_mod_regs c a b d hregs
    · exact op_and_regs c a b d hregs
    · exact op_or_regs c a b d hregs
    · intro h
      cases h
    · intro h
      cases h
    · intro h
      cases h
    · intro h
      cases h
    · intro h
      cases h
    · intro h
      cases h
    · intro h
      cases h
    · intro h
      cases h
    · intro h
      cases h
  · rcases k with _ | _ | _ | _ | _ | _ | _ | _ | _ | _ | _ | _ | _ | _ | _ | _ | _ | _ | _ | _ | _ | _ | k
    · intro h
      cases h
    · intro h
      cases h
    · intro h
      cases h
    · intro h
      cases h
    · intro h
      cases h
    · intro h
      cases h
    · intro h
      cases h
    · intro h
      cases h
    · intro h
      cases h
    · intro h
      cases h
    · intro h
      cases h
    · intro h
      cases h
    · intro h
      cases h
    · intro h
      cases h
    · intro h
      cases h
    · intro h
      cases h
    · intro h
      cases h
    · intro h
      cases h
    · intro h
      cases h
    · intro h
      cases h
    · intro h
      cases h
    · intro h
      cases h
    · intro h
      cases h

theorem stepCore_regs_lt (k : Nat) (c : Comp) (args : List Nat)
    (hregs : ∀ i, c.regs i < MOD) :
    (stepCore k c args).2 = none → ∀ i, (stepCore k c args).1.regs i < MOD := by
  unfold stepCore
  unfold_let
  split
  · intro h
    simp at h
  · rename_i heq
    intro _ i
    split
    · exact execOp_regs_lt k c args hregs heq i
    · exact execOp_regs_lt k c args hregs heq i

/-- C9: every `step` that completes without error preserves the invariant
that all eight registers hold values in `[0, 32768)`: every register write
path goes through `set_lit`, whose assertion rejects out-of-range values
before storing. -/
theorem c9_reg_invariant (c : Comp) (hregs : ∀ i, c.regs i < MOD)
    (hok : (step c).2 = none) : ∀ i, (step c).1.regs i < MOD := by
  revert hok
  unfold step
  unfold_let
  split
  · intro h
    simp at h
  · split
    · intro h
      simp at h
    · split
      · split
        · exact stepCore_regs_lt _ _ _ (fun j => hregs j)
        · intro h
          simp at h
      · intro h
        simp at h

/-- C9 witness: after one error-free step of the `add R0 4 5` program,
registers 0 and 7 are still below 32768. -/
theorem c9_reg_invariant_witness :
    (step (loadList initComp [9, 32768, 4, 5, 19, 32768, 0])).1.regs 0 < MOD ∧
    (step (loadList initComp [9, 32768, 4, 5, 19, 32768, 0])).1.regs 7 < MOD :=
  ⟨c9_reg_invariant (loadList initComp [9, 32768, 4, 5, 19, 32768, 0])
      (by decide) (by decide) 0,
    c9_reg_invariant (loadList initComp [9, 32768, 4, 5, 19, 32768, 0])
      (by decide) (by decide) 7⟩
